import Mathlib

/-!
Shallow embedding of the CNN sitemap scraper (src/main.py) and proofs of the
specification claims.

Modelling conventions:
* A fetched-and-parsed HTML page is abstracted by its flattened element list
  in document order (`Soup`); each `Elem` carries its tag, its attribute list
  and its visible text content (the bs4 `.text` of the element).
* The network is a function `Net : String -> Option Soup`: `some soup` is a
  successful GET whose body parses to `soup`; `none` is the exception path of
  `requests` (timeout, connection error, retries exhausted), in which
  `get_html` logs, appends the url to the module-level `failed_urls` list and
  returns `None`.  Passing that `None` on to `BeautifulSoup` raises a
  `TypeError`, modelled by `Except.error`.
* Module-level mutable state (the global `failed_urls` list and the contents
  of the side file `failed_urls.json`) is threaded explicitly as `GState`.
* Wall-clock timing samples are abstracted to `Unit` (one sample per
  completed unit of work); their float values are real time and outside the
  embedding.
* `concurrent.futures` completion order is nondeterministic; the embedding
  collects results in submission order.  The claims settled below are
  insensitive to the completion order.
-/

namespace Scraper

/-- One markup element: tag name, attribute list, and its text content
(the bs4 `.text`, i.e. the concatenated text nodes below it). -/
structure Elem where
  tag : String
  attrs : List (String × String)
  text : String
deriving Repr, DecidableEq

/-- A parsed document, flattened to its elements in document order. -/
abbrev Soup := List Elem

/-- The network: a url either fetches to a page (already parsed) or fails. -/
abbrev Net := String → Option Soup

/-- Module-level mutable state of main.py: the global `failed_urls` list
(line 41) and the contents of the side file `failed_urls.json` written by
`handle_failures` (`none` when the file was never written). -/
structure GState where
  failed_urls : List String
  sideFile : Option (List String)
deriving Repr, DecidableEq

/-- The initial module state: empty failure list, no side file. -/
def g0 : GState := ⟨[], none⟩

/-- Attribute lookup on an element, as bs4 `element.get(name)` /
`element[name]` (first binding wins). -/
def attrOf (e : Elem) (name : String) : Option String :=
  (e.attrs.find? (fun p => p.1 == name)).map (fun p => p.2)

/-- Does the character list start with the given pattern? -/
def startsWithPat : List Char → List Char → Bool
  | [], _ => true
  | _ :: _, [] => false
  | p :: ps, c :: cs => p == c && startsWithPat ps cs

/-- Does the character list contain the pattern as a contiguous run?
This is `re.search` for a regex that is a literal string (all the
exclusion patterns in main.py only escape hyphens, so they are literals). -/
def containsPat (pat : List Char) : List Char → Bool
  | [] => startsWithPat pat []
  | c :: rest => startsWithPat pat (c :: rest) || containsPat pat rest

/-- Does the regex `/\d{4}/\d{2}/\d{2}/` match at the head of the list? -/
def isDatePathAt : List Char → Bool
  | '/' :: a :: b :: c :: d :: '/' :: e :: f :: '/' :: g :: h :: '/' :: _ =>
      a.isDigit && b.isDigit && c.isDigit && d.isDigit &&
      e.isDigit && f.isDigit && g.isDigit && h.isDigit
  | _ => false

/-- `re.search` of `/\d{4}/\d{2}/\d{2}/` anywhere in the string
(main.py line 110, `re_article`). -/
def containsDatePath : List Char → Bool
  | [] => false
  | c :: rest => isDatePathAt (c :: rest) || containsDatePath rest

/-- The `excluded_pages` pattern list (main.py lines 43-50).  Each compiled
regex only escapes hyphens, so each is a literal substring pattern. -/
def excluded_pages : List String :=
  ["cnn-underscored", "fast-facts", "five-things", "-trnd",
   "what-matters", "week-in-review"]

/-- Does the url match the given exclusion pattern (`re.search`)? -/
def exclMatches (pat url : String) : Bool :=
  containsPat pat.data url.data

/-- bs4 `find_all(tag, class_=re.compile(pat))` element predicate on the
class attribute: the element has a class attribute and the pattern occurs in
it.  (bs4 searches each class token and, as a fallback, the space-joined
class string; for these patterns that is equivalent to searching the full
class attribute string.) -/
def classMatches (pat : String) (e : Elem) : Bool :=
  match attrOf e "class" with
  | some c => containsPat pat.data c.data
  | none => false

/-- `get_soup_links` (main.py lines 109-115): collect the href of every
anchor element whose href attribute matches the date-path regex. -/
def get_soup_links (soup : Soup) : List String :=
  soup.filterMap (fun e =>
    if e.tag == "a" then
      match attrOf e "href" with
      | some h => if containsDatePath h.data then some h else none
      | none => none
    else none)

/-- `handle_failures` (main.py lines 98-104): writes the list to
`failed_urls.json` when non-empty, otherwise leaves the side file alone. -/
def handle_failures (failures : List String) (side : Option (List String)) :
    Option (List String) :=
  if failures.length > 0 then some failures else side

/-- The link-filter loop shared by `crawl_links_month` (lines 127-134) and
`crawl_links_year` (lines 154-161): per url, a `valid` flag is cleared when
any exclusion pattern matches; valid urls are appended to `clean_links`. -/
def cleanLoop : List String → List String
  | [] => []
  | url :: rest =>
      let valid := excluded_pages.foldl
        (fun v ex => if exclMatches ex url then false else v) true
      if valid then url :: cleanLoop rest else cleanLoop rest

/-- The sitemap url built by the crawlers
(`https://us.cnn.com/article/sitemap-{year}-{month}.html`, month unpadded). -/
def sitemap_url (year month : Nat) : String :=
  "https://us.cnn.com/article/sitemap-" ++ toString year ++ "-" ++
    toString month ++ ".html"

/-- `crawl_links_month` (main.py lines 120-135).  A local `failed_urls = []`
shadows the module-level list, so `handle_failures` always receives `[]`.
On fetch failure `get_html` appends to the module-level list and returns
`None`; `get_soup(None)` then raises a `TypeError` which nothing in this
function catches. -/
def crawl_links_month (net : Net) (year month : Nat) (g : GState) :
    Except String (List String) × GState :=
  let local_failed : List String := []
  let url_str := sitemap_url year month
  match net url_str with
  | none =>
      (.error "TypeError", { g with failed_urls := g.failed_urls ++ [url_str] })
  | some page =>
      let all_links := get_soup_links page
      let g1 := { g with sideFile := handle_failures local_failed g.sideFile }
      (.ok (cleanLoop all_links), g1)

/-- The month loop of `crawl_links_year` (main.py lines 143-152): each month
body runs under `try`, so a fetch failure (appended to the module-level
failure list by `get_html`, then a `TypeError` from `get_soup(None)`) is
caught and the loop continues with the next month. -/
def crawlYearLoop (net : Net) (year : Nat) :
    List Nat → List String → GState → List String × GState
  | [], acc, g => (acc, g)
  | m :: rest, acc, g =>
      match net (sitemap_url year m) with
      | some page => crawlYearLoop net year rest (acc ++ get_soup_links page) g
      | none =>
          crawlYearLoop net year rest acc
            { g with failed_urls := g.failed_urls ++ [sitemap_url year m] }

/-- `crawl_links_year` (main.py lines 140-162): iterate months 1..12
(`range(1,13)`), accumulate links, pass the (shadowing, always empty) local
`failed_urls` to `handle_failures`, then filter. -/
def crawl_links_year (net : Net) (year : Nat) (g : GState) :
    List String × GState :=
  let local_failed : List String := []
  let (all_links, g1) :=
    crawlYearLoop net year ((List.range 12).map (fun i => i + 1)) [] g
  let g2 := { g1 with sideFile := handle_failures local_failed g1.sideFile }
  (cleanLoop all_links, g2)

/-- `parse_meta` (main.py lines 167-172): `soup.find("meta", attrs=kwargs)`
returns the first meta element whose listed attributes all equal the given
values; indexing it with `attr` yields that attribute.  Any failure
(no element: `TypeError` on `None[attr]`; missing attribute: `KeyError`)
is caught and yields `None`. -/
def parse_meta (soup : Soup) (attr : String) (kwargs : List (String × String)) :
    Option String :=
  match soup.find? (fun e =>
      e.tag == "meta" && kwargs.all (fun kv => attrOf e kv.1 == some kv.2)) with
  | some e => attrOf e attr
  | none => none

/-- Shorthand for the meta lookups of `parse_article`. -/
def metaContent (soup : Soup) (iname : String) : Option String :=
  parse_meta soup "content" [("itemprop", iname)]

/-- The parsed article record built by `parse_article`. -/
structure Article where
  headline : Option String
  modified : Option String
  text : String
deriving Repr, DecidableEq

/-- Shape (a1): paragraph tag with class containing `body__paragraph`. -/
def shapeP (e : Elem) : Bool :=
  e.tag == "p" && classMatches "body__paragraph" e

/-- Shape (a2): container (div) tag with class containing `body__paragraph`. -/
def shapeDiv (e : Elem) : Bool :=
  e.tag == "div" && classMatches "body__paragraph" e

/-- Shape (b): paragraph tag with class containing
`paragraph inline-placeholder`. -/
def shapeAlt (e : Elem) : Bool :=
  e.tag == "p" && classMatches "paragraph inline-placeholder" e

/-- One of the three `for` loops of `parse_article` (lines 183-191): append
the text of every element matching the shape.  (The guard
`if not para == ''` in the source compares a Tag against a string and is
always true, so it adds nothing.) -/
def paraLoop (shape : Elem → Bool) (soup : Soup) (acc : List String) :
    List String :=
  soup.foldl (fun a e => if shape e then a ++ [e.text] else a) acc

/-- `parse_article` (main.py lines 177-203): collect paragraph texts with the
three loops in source order (p body__paragraph, div body__paragraph, p
paragraph inline-placeholder), join with no separator, then the meta
lookups with the headline fallback. -/
def parse_article (soup : Soup) : Article :=
  let paras := paraLoop shapeP soup []
  let paras := paraLoop shapeDiv soup paras
  let paras := paraLoop shapeAlt soup paras
  let text := String.join paras
  let modified := metaContent soup "dateModified"
  let headline :=
    match metaContent soup "alternativeHeadline" with
    | some h => some h
    | none => metaContent soup "headline"
  { headline := headline, modified := modified, text := text }

/-- Modelled from the spec (claim C4): the text of all paragraph elements
matched by any of the three markup shapes, concatenated in document order
with no separator.  Kept as the comparison point for the Article Extractor;
the source `parse_article` is the authority. -/
def spec_docOrderText (soup : Soup) : String :=
  String.join ((soup.filter
    (fun e => shapeP e || shapeDiv e || shapeAlt e)).map Elem.text)

/-- The `results` dict returned by a successful `thread_worker` call.
`article_text` is `some` exactly when the dict carries the key.  (The three
timing entries are real-time floats, abstracted away; `parse_many` appends
one `Unit` sample per completed unit instead.) -/
structure WorkerResult where
  headline : Option String
  modified : Option String
  article_text : Option String
deriving Repr, DecidableEq

/-- `thread_worker` (main.py lines 208-239).  `get_html` either yields the
page or appends the url to the module-level failure list and returns `None`;
`get_soup(None)` then raises a `TypeError`.  On a parsed page the worker
copies headline and modified, stores `article_text` only when the mode is
not `keywords` and the extracted text is non-empty (otherwise it logs a
warning), and for any mode other than `text` reads `article["keywords"]`,
a key `parse_article` never sets, raising a `KeyError`. -/
def thread_worker (net : Net) (mode : String) (url_str : String) (g : GState) :
    Except String WorkerResult × GState :=
  match net url_str with
  | none =>
      (.error "TypeError",
       { g with failed_urls := g.failed_urls ++ [url_str] })
  | some soup =>
      let article := parse_article soup
      let article_text :=
        if mode != "keywords" then
          if article.text != "" then some article.text else none
        else none
      if mode != "text" then
        (.error "KeyError: keywords", g)
      else
        (.ok { headline := article.headline, modified := article.modified,
               article_text := article_text }, g)

/-- The `as_completed` collection loop of `parse_many` (lines 251-261),
with completion order modelled as submission order.  `future.result()`
re-raises any exception the worker raised; there is no try/except around it,
so the first raising worker aborts the loop.  A completed result contributes
its `article_text` to `parsed_list` only when the key is present, and one
timing sample to each of the three timing lists. -/
def parse_many_loop (net : Net) (mode : String) :
    List String → List String × List Unit × List Unit × List Unit → GState →
    Except String (List String × List Unit × List Unit × List Unit) × GState
  | [], acc, g => (.ok acc, g)
  | u :: rest, (pl, ht, st, pt), g =>
      match thread_worker net mode u g with
      | (.ok r, g1) =>
          let pl1 := match r.article_text with
            | some t => pl ++ [t]
            | none => pl
          parse_many_loop net mode rest
            (pl1, ht ++ [()], st ++ [()], pt ++ [()]) g1
      | (.error e, g1) => (.error e, g1)

/-- `parse_many` (main.py lines 244-265).  A local `failed_urls = []` again
shadows the module-level list, so `handle_failures` receives `[]`.  The
returned `parsed_list` is a list of bare `article_text` strings. -/
def parse_many (net : Net) (mode : String) (url_list : List String)
    (g : GState) :
    Except String (List String × List Unit × List Unit × List Unit) × GState :=
  let local_failed : List String := []
  match parse_many_loop net mode url_list ([], [], [], []) g with
  | (.ok acc, g1) =>
      (.ok acc, { g1 with sideFile := handle_failures local_failed g1.sideFile })
  | (.error e, g1) => (.error e, g1)

/-! Concrete fixtures used by witnesses and counterexamples. -/

/-- A concrete article url with a date path. -/
def ex_url : String := "https://us.cnn.com/2021/04/14/us/example/index.html"

/-- A concrete article page: three meta tags and one body paragraph. -/
def ex_article_soup : Soup :=
  [ ⟨"meta", [("itemprop", "alternativeHeadline"),
              ("content", "Alt Headline")], ""⟩,
    ⟨"meta", [("itemprop", "headline"), ("content", "Plain Headline")], ""⟩,
    ⟨"meta", [("itemprop", "dateModified"),
              ("content", "2021-04-14T12:00:00Z")], ""⟩,
    ⟨"p", [("class", "zn-body__paragraph")], "Hello."⟩ ]

/-- A network serving exactly `ex_url`. -/
def ex_net : Net := fun u => if u == ex_url then some ex_article_soup else none

/-- A page whose first matched paragraph is a div and whose second is a p:
document order is div before p, but `parse_article` visits all p tags
first. -/
def ex_mixed_soup : Soup :=
  [ ⟨"div", [("class", "zn-body__paragraph")], "A"⟩,
    ⟨"p", [("class", "zn-body__paragraph")], "B"⟩ ]

/-- A page with metadata but zero matching paragraph elements. -/
def ex_meta_soup : Soup :=
  [ ⟨"meta", [("itemprop", "headline"), ("content", "Video Page")], ""⟩ ]

/-- The element predicate realised by the anchor search of `get_soup_links`:
an anchor tag with an href attribute matched by the date-path regex. -/
def anchorMatches (e : Elem) : Bool :=
  e.tag == "a" &&
    (match attrOf e "href" with
     | some h => containsDatePath h.data
     | none => false)

/-! Helper lemmas shared by the claim proofs. -/

/-- The paragraph loops append the filtered texts to the accumulator. -/
lemma paraLoop_eq (shape : Elem → Bool) (soup : Soup) :
    ∀ acc, paraLoop shape soup acc = acc ++ (soup.filter shape).map Elem.text := by
  induction soup with
  | nil => intro acc; simp [paraLoop]
  | cons e rest ih =>
      intro acc
      by_cases he : shape e
      · simpa [paraLoop, List.filter_cons, he] using ih (acc ++ [e.text])
      · simpa [paraLoop, List.filter_cons, he] using ih acc

/-- The joined text of `parse_article`, grouped by the three shape loops. -/
lemma parse_article_text_eq (soup : Soup) :
    (parse_article soup).text =
      String.join ((soup.filter shapeP).map Elem.text ++
                   (soup.filter shapeDiv).map Elem.text ++
                   (soup.filter shapeAlt).map Elem.text) := by
  simp [parse_article, paraLoop_eq, List.append_assoc]

/-- The per-url `valid` flag computed by the exclusion loop equals matching
none of the patterns. -/
lemma validFold (u : String) :
    ∀ (l : List String) (b : Bool),
      l.foldl (fun v ex => if exclMatches ex u then false else v) b =
        (b && l.all (fun ex => !exclMatches ex u)) := by
  intro l
  induction l with
  | nil => intro b; simp
  | cons ex rest ih =>
      intro b
      rw [List.foldl_cons]
      by_cases hex : exclMatches ex u
      · rw [if_pos hex, ih false]
        simp [hex]
      · rw [if_neg hex, ih b]
        simp [hex]

/-- The filtering loop is `List.filter` with the none-of-the-patterns
predicate. -/
lemma cleanLoop_eq_filter (urls : List String) :
    cleanLoop urls =
      urls.filter (fun u => excluded_pages.all (fun ex => !exclMatches ex u)) := by
  induction urls with
  | nil => simp [cleanLoop]
  | cons u rest ih =>
      simp only [cleanLoop]
      rw [validFold u excluded_pages true]
      by_cases hu : excluded_pages.all (fun ex => !exclMatches ex u)
      · simp [hu, List.filter_cons, ih]
      · simp [hu, List.filter_cons, ih]

/-- Closed form of the year-crawl month loop: the accumulated links are those
of the successful months in order, and the module failure list gains one
sitemap url per failed month. -/
lemma crawlYearLoop_spec (net : Net) (year : Nat) :
    ∀ (ms : List Nat) (acc : List String) (g : GState),
      crawlYearLoop net year ms acc g =
        (acc ++ (ms.filterMap
            (fun m => (net (sitemap_url year m)).map get_soup_links)).flatten,
         { g with failed_urls := (g.failed_urls ++
             ((ms.filter (fun m => (net (sitemap_url year m)).isNone)).map
               (fun m => sitemap_url year m))) }) := by
  intro ms
  induction ms with
  | nil => intro acc g; simp [crawlYearLoop]
  | cons m rest ih =>
      intro acc g
      cases hm : net (sitemap_url year m) with
      | some page =>
          simp [crawlYearLoop, hm, ih, List.filter_cons, List.filterMap_cons]
      | none =>
          simp [crawlYearLoop, hm, ih, List.filter_cons, List.filterMap_cons]

/-- A successful worker result can only carry a non-empty article text. -/
lemma thread_worker_ok_text (net : Net) (mode u : String) (g : GState)
    (r : WorkerResult) (g1 : GState)
    (hok : thread_worker net mode u g = (.ok r, g1)) :
    ∀ t, r.article_text = some t → t ≠ "" := by
  intro t ht
  unfold thread_worker at hok
  cases hnet : net u with
  | none => rw [hnet] at hok; exact absurd hok (by simp)
  | some soup =>
      rw [hnet] at hok
      simp only at hok
      by_cases hmode : (mode != "text") = true
      · rw [if_pos hmode] at hok
        exact absurd hok (by simp)
      · rw [if_neg hmode] at hok
        have hr : r.article_text =
            (if (mode != "keywords") = true then
              (if ((parse_article soup).text != "") = true then
                some (parse_article soup).text
              else none)
            else none) := by
          have := (Prod.mk.injEq _ _ _ _).mp hok
          have h2 := congrArg (fun x => match x with
            | Except.ok w => w.article_text
            | Except.error _ => none) this.1
          simpa using h2.symm
        rw [hr] at ht
        by_cases hk : (mode != "keywords") = true
        · rw [if_pos hk] at ht
          by_cases hne : ((parse_article soup).text != "") = true
          · rw [if_pos hne] at ht
            have : t = (parse_article soup).text := by
              simpa using ht.symm
            subst this
            simpa using hne
          · rw [if_neg hne] at ht
            exact absurd ht (by simp)
        · rw [if_neg hk] at ht
          exact absurd ht (by simp)

/-- The collection loop never appends an empty string to `parsed_list`. -/
lemma parse_many_loop_no_empty (net : Net) (mode : String) :
    ∀ (urls : List String) (pl : List String)
      (ht st pt : List Unit) (g : GState)
      (out : List String × List Unit × List Unit × List Unit) (g1 : GState),
      parse_many_loop net mode urls (pl, ht, st, pt) g = (.ok out, g1) →
      "" ∉ pl → "" ∉ out.1 := by
  intro urls
  induction urls with
  | nil =>
      intro pl ht st pt g out g1 hrun hpl
      simp only [parse_many_loop] at hrun
      have : out = (pl, ht, st, pt) := by
        have := (Prod.mk.injEq _ _ _ _).mp hrun
        simpa using this.1.symm
      rw [this]
      exact hpl
  | cons u rest ih =>
      intro pl ht st pt g out g1 hrun hpl
      simp only [parse_many_loop] at hrun
      cases hw : thread_worker net mode u g with
      | mk res g2 =>
          rw [hw] at hrun
          cases res with
          | error e => exact absurd hrun (by simp)
          | ok r =>
              simp only at hrun
              cases har : r.article_text with
              | none =>
                  rw [har] at hrun
                  exact ih pl (ht ++ [()]) (st ++ [()]) (pt ++ [()]) g2
                    out g1 hrun hpl
              | some t =>
                  rw [har] at hrun
                  refine ih (pl ++ [t]) (ht ++ [()]) (st ++ [()]) (pt ++ [()])
                    g2 out g1 hrun ?_
                  intro hmem
                  rcases List.mem_append.mp hmem with h1 | h2
                  · exact hpl h1
                  · have ht0 : t = "" := by
                      have := List.mem_singleton.mp h2
                      exact this.symm
                    exact thread_worker_ok_text net mode u g r g2 hw t har ht0

/-- Characterisation of the per-element extraction of `get_soup_links`. -/
lemma linkExtract_eq_some (e : Elem) (s : String) :
    (if e.tag == "a" then
       match attrOf e "href" with
       | some h => if containsDatePath h.data then some h else none
       | none => none
     else none) = some s ↔
      (e.tag = "a" ∧ attrOf e "href" = some s ∧
        containsDatePath s.data = true) := by
  by_cases ht : e.tag == "a"
  · have ht' : e.tag = "a" := by simpa using ht
    cases hh : attrOf e "href" with
    | none => simp [ht, hh]
    | some h =>
        rw [if_pos ht]
        show ((if containsDatePath h.data = true then some h else none) =
            some s) ↔
          (e.tag = "a" ∧ some h = some s ∧ containsDatePath s.data = true)
        by_cases hd : containsDatePath h.data = true
        · rw [if_pos hd]
          constructor
          · intro h1
            have : h = s := by simpa using h1
            subst this
            exact ⟨ht', rfl, hd⟩
          · rintro ⟨-, h2, -⟩
            simpa using h2
        · rw [if_neg hd]
          constructor
          · intro h1; exact absurd h1 (by simp)
          · rintro ⟨-, h2, h3⟩
            have : h = s := by simpa using h2
            subst this
            exact absurd h3 hd
  · have ht' : ¬e.tag = "a" := by simpa using ht
    simp [ht, ht']

/-- The per-element extraction succeeds exactly on matching anchors. -/
lemma linkExtract_isSome (e : Elem) :
    (if e.tag == "a" then
       match attrOf e "href" with
       | some h => if containsDatePath h.data then some h else none
       | none => none
     else none).isSome = anchorMatches e := by
  by_cases ht : e.tag == "a"
  · cases hh : attrOf e "href" with
    | none => simp [anchorMatches, ht, hh]
    | some h =>
        by_cases hd : containsDatePath h.data
        · simp [anchorMatches, ht, hh, hd]
        · simp [anchorMatches, ht, hh, hd]
  · simp [anchorMatches, ht]

/-- `filterMap` keeps as many elements as `filter` by success of the map. -/
lemma length_filterMap_filter {α β : Type} (f : α → Option β) :
    ∀ l : List α,
      (l.filterMap f).length = (l.filter (fun a => (f a).isSome)).length := by
  intro l
  induction l with
  | nil => simp
  | cons a rest ih =>
      cases hf : f a with
      | none => simp [List.filterMap_cons, List.filter_cons, hf, ih]
      | some b => simp [List.filterMap_cons, List.filter_cons, hf, ih]

/-- Claim C1: on a url whose page holds metadata and a body paragraph, the
Dispatcher appends only the bare `article_text` string to `parsed_list`, so
`parse_many` returns a list of bare text strings (here `["Hello."]`, of type
`List String`), not ArticleRecord values with headline and modified
fields. -/
theorem parse_many_returns_bare_text :
    parse_many ex_net "text" [ex_url] g0 =
      (.ok (["Hello."], [()], [()], [()]), g0) := by rfl

/-- Claim C2, counterexample: with a network that fails on the single url,
the unit of work raises (get_soup on a None page) and `future.result()`
re-raises inside `parse_many`, whose result is the exception, not an output
list — the exception does propagate out of `parse_many`. -/
theorem parse_many_lets_exception_escape :
    (parse_many (fun _ => none) "text" [ex_url] g0).1 =
      Except.error "TypeError" := by rfl

/-- Claim C2, amended: a unit of work that throws at any stage is NOT caught
by `parse_many`: the first collected failing future re-raises, the exception
propagates out of `parse_many` and aborts the batch (it is caught only by
the top-level handler in `main`). -/
theorem parse_many_error_propagates (net : Net) (mode u : String)
    (rest : List String) (g g1 : GState) (e : String)
    (h : thread_worker net mode u g = (.error e, g1)) :
    parse_many net mode (u :: rest) g = (.error e, g1) := by
  simp only [parse_many, parse_many_loop, h]

/-- Claim C2, witness for the amended theorem at a failing one-url batch. -/
theorem parse_many_error_propagates_witness :
    parse_many (fun _ => none) "text" [ex_url] g0 =
      (.error "TypeError", ⟨[ex_url], none⟩) :=
  parse_many_error_propagates (fun _ => none) "text" ex_url [] g0
    ⟨[ex_url], none⟩ "TypeError" (by rfl)

/-- Claim C3: a year crawl in which every sitemap fetch fails ends with a
non-empty module-level failure list, yet the side file `failed_urls.json` is
never written — `handle_failures` only ever receives the shadowing local
`failed_urls = []`, so the urls recorded by `get_html` are never
exported. -/
theorem failed_urls_never_exported :
    (crawl_links_year (fun _ => none) 2021 g0).2.failed_urls ≠ [] ∧
    (crawl_links_year (fun _ => none) 2021 g0).2.sideFile = none := by
  constructor
  · decide
  · decide

/-- Claim C4, counterexample: on a page whose div-shaped paragraph "A"
precedes its p-shaped paragraph "B", `parse_article` produces "BA" (all p
tags are visited before all div tags) while the document-order
concatenation is "AB". -/
theorem parse_article_not_doc_order :
    (parse_article ex_mixed_soup).text = "BA" ∧
    spec_docOrderText ex_mixed_soup = "AB" ∧
    (parse_article ex_mixed_soup).text ≠ spec_docOrderText ex_mixed_soup := by
  refine ⟨by rfl, by rfl, by decide⟩

/-- Claim C4, amended: the text field equals the concatenation of the
matched paragraph texts grouped by markup shape — first every p tag with
class containing body__paragraph in document order, then every div tag with
class containing body__paragraph, then every p tag with class containing
paragraph inline-placeholder — with no separator inserted. -/
theorem parse_article_text_rule_grouped (soup : Soup) :
    (parse_article soup).text =
      String.join ((soup.filter shapeP).map Elem.text ++
                   (soup.filter shapeDiv).map Elem.text ++
                   (soup.filter shapeAlt).map Elem.text) :=
  parse_article_text_eq soup

/-- Claim C5, counterexample: when the fetch of the month sitemap fails,
`crawl_links_month` raises (a TypeError from `get_soup(None)`) instead of
returning — there is no try/except inside `crawl_links_month`. -/
theorem crawl_links_month_raises :
    (crawl_links_month (fun _ => none) 2021 3 g0).1 =
      Except.error "TypeError" := by rfl

/-- Claim C5, amended: when the fetch of the month sitemap fails,
`crawl_links_month` records the failed url in the module-level failure list
(inside `get_html`) but then raises; the failure is caught and skipped only
by the caller (the month loop of `crawl_links_year`, or the top-level
handler in `main`). -/
theorem crawl_links_month_fetch_failure (net : Net) (year month : Nat)
    (g : GState) (h : net (sitemap_url year month) = none) :
    crawl_links_month net year month g =
      (.error "TypeError",
       { g with failed_urls := g.failed_urls ++ [sitemap_url year month] }) := by
  simp only [crawl_links_month, h]

/-- Claim C5, witness for the amended theorem at a failing month fetch. -/
theorem crawl_links_month_fetch_failure_witness :
    crawl_links_month (fun _ => none) 2021 3 g0 =
      (.error "TypeError",
       { g0 with failed_urls := g0.failed_urls ++ [sitemap_url 2021 3] }) :=
  crawl_links_month_fetch_failure (fun _ => none) 2021 3 g0 rfl

/-- Claim C6: markup with zero matching paragraph elements yields an empty
text from the Article Extractor, and a record with empty extracted text is
never added to the Dispatcher output list (its `article_text` key is
omitted, so the collection loop skips it). -/
theorem empty_text_record_dropped :
    (∀ soup : Soup,
        soup.filter (fun e => shapeP e || shapeDiv e || shapeAlt e) = [] →
        (parse_article soup).text = "") ∧
    (∀ (net : Net) (mode : String) (urls : List String) (g : GState)
        (out : List String × List Unit × List Unit × List Unit) (g1 : GState),
        parse_many net mode urls g = (.ok out, g1) → "" ∉ out.1) := by
  constructor
  · intro soup hnil
    have hall := List.filter_eq_nil_iff.mp hnil
    rw [parse_article_text_eq]
    have h1 : soup.filter shapeP = [] := by
      refine List.filter_eq_nil_iff.mpr ?_
      intro e he
      have h := hall e he
      simp only [Bool.or_eq_true, not_or] at h
      exact h.1.1
    have h2 : soup.filter shapeDiv = [] := by
      refine List.filter_eq_nil_iff.mpr ?_
      intro e he
      have h := hall e he
      simp only [Bool.or_eq_true, not_or] at h
      exact h.1.2
    have h3 : soup.filter shapeAlt = [] := by
      refine List.filter_eq_nil_iff.mpr ?_
      intro e he
      have h := hall e he
      simp only [Bool.or_eq_true, not_or] at h
      exact h.2
    rw [h1, h2, h3]
    rfl
  · intro net mode urls g out g1 hrun
    simp only [parse_many] at hrun
    cases hloop : parse_many_loop net mode urls ([], [], [], []) g with
    | mk res g2 =>
        rw [hloop] at hrun
        cases res with
        | error e => exact absurd hrun (by simp)
        | ok acc =>
            simp only at hrun
            obtain ⟨h1, -⟩ := (Prod.mk.injEq _ _ _ _).mp hrun
            have hout : acc = out := by simpa using h1
            rw [← hout]
            exact parse_many_loop_no_empty net mode urls [] [] [] [] g acc g2
              hloop (by simp)

/-- Claim C6, witness: a metadata-only page extracts to empty text, and the
output list of a successful one-article batch does not contain the empty
string. -/
theorem empty_text_record_dropped_witness :
    (parse_article ex_meta_soup).text = "" ∧ "" ∉ ["Hello."] :=
  ⟨empty_text_record_dropped.1 ex_meta_soup (by decide),
   empty_text_record_dropped.2 ex_net "text" [ex_url] g0
     (["Hello."], [()], [()], [()]) g0 (by rfl)⟩

/-- Claim C7: `crawl_links_year` iterates months 1 through 12; a month whose
sitemap fetch fails is recorded in the module failure list and skipped, and
the crawl returns the filtered union (concatenation) of the links of the
successful months, never raising (the function is total and yields this
closed form for every network behaviour). -/
theorem crawl_links_year_skips_failed_months (net : Net) (year : Nat)
    (g : GState) :
    crawl_links_year net year g =
      (cleanLoop (((List.range 12).map (fun i => i + 1)).filterMap
          (fun m => (net (sitemap_url year m)).map get_soup_links)).flatten,
       { g with failed_urls := (g.failed_urls ++
           ((((List.range 12).map (fun i => i + 1)).filter
             (fun m => (net (sitemap_url year m)).isNone)).map
             (fun m => sitemap_url year m))) }) := by
  simp only [crawl_links_year]
  rw [crawlYearLoop_spec]
  simp [handle_failures]

/-- Claim C8: `get_soup_links` returns exactly the href values of the
anchor elements whose href matches the date-path regex somewhere in the
string, verbatim: a string is returned iff some anchor carries it as a
matching href, and the number of returned links equals the number of
matching anchors. -/
theorem get_soup_links_exact (soup : Soup) :
    (∀ s : String, s ∈ get_soup_links soup ↔
       ∃ e ∈ soup, e.tag = "a" ∧ attrOf e "href" = some s ∧
         containsDatePath s.data = true) ∧
    (get_soup_links soup).length = (soup.filter anchorMatches).length := by
  constructor
  · intro s
    rw [get_soup_links, List.mem_filterMap]
    constructor
    · rintro ⟨e, he, hfe⟩
      exact ⟨e, he, (linkExtract_eq_some e s).mp hfe⟩
    · rintro ⟨e, he, hc⟩
      exact ⟨e, he, (linkExtract_eq_some e s).mpr hc⟩
  · rw [get_soup_links, length_filterMap_filter]
    congr 1
    exact List.filter_congr (fun e _ => linkExtract_isSome e)

/-- Claim C9: the link filter keeps a url iff it matches none of the six
exclusion patterns (so it removes exactly the urls matching at least one),
and it is the identity on a list in which no url matches any pattern. -/
theorem link_filter_exact :
    (∀ (urls : List String) (u : String),
        u ∈ cleanLoop urls ↔
          u ∈ urls ∧ ∀ ex ∈ excluded_pages, exclMatches ex u = false) ∧
    (∀ urls : List String,
        (∀ u ∈ urls, ∀ ex ∈ excluded_pages, exclMatches ex u = false) →
        cleanLoop urls = urls) := by
  constructor
  · intro urls u
    rw [cleanLoop_eq_filter, List.mem_filter]
    simp [List.all_eq_true]
  · intro urls hnone
    rw [cleanLoop_eq_filter]
    refine List.filter_eq_self.mpr ?_
    intro u hu
    rw [List.all_eq_true]
    intro ex hex
    simp [hnone u hu ex hex]

/-- Claim C9, witness: the filter is the identity on a one-url list matching
no exclusion pattern. -/
theorem link_filter_exact_witness :
    cleanLoop [ex_url] = [ex_url] :=
  link_filter_exact.2 [ex_url] (by decide)

/-- Claim C10: the headline equals the content of the
itemprop=alternativeHeadline meta when that lookup succeeds; when it yields
nothing the headline equals the itemprop=headline lookup (absent when both
are absent); and the modified field always equals its own
itemprop=dateModified lookup, so a failed headline lookup never disturbs
the remaining fields. -/
theorem headline_resolution (soup : Soup) :
    (∀ h, metaContent soup "alternativeHeadline" = some h →
        (parse_article soup).headline = some h) ∧
    (metaContent soup "alternativeHeadline" = none →
        (parse_article soup).headline = metaContent soup "headline") ∧
    (parse_article soup).modified = metaContent soup "dateModified" := by
  refine ⟨?_, ?_, rfl⟩
  · intro h hh
    simp [parse_article, hh]
  · intro hnone
    simp [parse_article, hnone]

/-- Claim C10, witness: with both metas present the alternative headline
wins; with only itemprop=headline present the fallback value is used. -/
theorem headline_resolution_witness :
    (parse_article ex_article_soup).headline = some "Alt Headline" ∧
    (parse_article ex_meta_soup).headline = some "Video Page" :=
  ⟨(headline_resolution ex_article_soup).1 "Alt Headline" (by rfl),
   by
     have h := (headline_resolution ex_meta_soup).2.1 (by rfl)
     rw [h]
     rfl⟩

end Scraper
